import Mathlib

/-!
Shallow embedding of `src/main.py`, a minimal multi-tenant transcript
ingestion API: validation, a tenant-scoped in-memory store (a dict of
dicts), an enrichment pipeline and a rescore pipeline, and three
endpoints (ingest, fetch, rescore).

Modelling conventions:
  * Python floats are modelled as exact rationals (`ℚ`); `round(x, 3)`
    is modelled as `round3` below (round to the nearest multiple of
    1/1000).  The properties proved here depend only on monotonicity of
    rounding and on its fixing multiples of 1/1000, not on tie-breaking.
  * `random.uniform(lo, hi)` is modelled by quantifying over an
    arbitrary rational perturbation, with the bounds `lo ≤ v ≤ hi` as
    hypotheses where a claim needs them.
  * Python dicts are modelled as association lists (`dictGet`/`dictSet`
    mirror `d.get(k)` / `d[k] = v`); the store `DB` is a dict from
    tenant id to a dict from conversation id to record.
  * `BackgroundTasks.add_task` is modelled by the handler returning the
    list of scheduled `Task`s next to its response; the handler also
    returns the store so that "the store is unchanged" is statable.
  * `await asyncio.sleep(3)` is a pure delay with no observable effect
    and is elided.
  * The required header `x_tenant_id: str = Header(...)` of `/ingest`
    is modelled at two levels, as FastAPI treats it: the transport
    layer (`requestIngest`) rejects a request whose header is absent
    with a 422 validation error before the endpoint body ever runs, so
    the body (`ingest_transcript`) always receives a present `String`
    value; the body's `if not x_tenant_id` check (Python truthiness of
    a `str`) then fails exactly the empty string, yielding the 400.
  * Payload text is modelled as `List Char`; `str.strip()` is `strip`,
    and the Python substring test `"money" in text` is `containsSub`.
-/

/-- Characters of the literal `"money"` searched for by the enrichment
pipeline. -/
def moneyChars : List Char := ['m', 'o', 'n', 'e', 'y']

/-- `matchesAt needle hay` holds when `needle` is an initial segment of
`hay` (helper for the Python substring test). -/
def matchesAt : List Char → List Char → Bool
  | [], _ => true
  | _ :: _, [] => false
  | a :: as, b :: bs => a == b && matchesAt as bs

/-- `containsSub needle hay` models the Python expression
`needle in hay` on strings: `needle` occurs contiguously somewhere in
`hay`. -/
def containsSub (needle : List Char) : List Char → Bool
  | [] => matchesAt needle []
  | c :: rest => matchesAt needle (c :: rest) || containsSub needle rest

/-- Models Python `str.strip()`: removes leading and trailing whitespace
characters. -/
def strip (s : List Char) : List Char :=
  ((s.dropWhile Char.isWhitespace).reverse.dropWhile Char.isWhitespace).reverse

/-- Models Python `round(x, 3)`: round to the nearest multiple of
1/1000 (tie-breaking as in Mathlib's `round`; the claims proved below
are insensitive to tie-breaking). -/
def round3 (x : ℚ) : ℚ := (round (x * 1000) : ℤ) / 1000

/-- The `TranscriptPayload` model of `src/main.py` (a payload that has
passed pydantic construction). -/
structure TranscriptPayload where
  conversation_id : String
  text : List Char
deriving DecidableEq, Repr

/-- `TranscriptPayload.validate_text` from `src/main.py`: rejects text
that is empty after stripping whitespace, or whose raw length exceeds
5000 characters. -/
def validate_text (v : List Char) : Except String (List Char) :=
  if v.isEmpty || (strip v).isEmpty then
    Except.error "Text field cannot be empty"
  else if v.length > 5000 then
    Except.error "Text field cannot exceed 5000 characters"
  else
    Except.ok v

/-- A stored result record (the dict written by `run_data_pipeline`,
which also matches the `AgentResponse` model plus the redundant
`tenant_id` field). -/
structure Record where
  conversation_id : String
  sentiment_score : ℚ
  summary : String
  tags : List String
  status : String
  tenant_id : String
deriving DecidableEq, Repr

/-- Python `d.get(k)` on an association-list dict. -/
def dictGet {α : Type} (k : String) : List (String × α) → Option α
  | [] => none
  | (k', v) :: rest => if k = k' then some v else dictGet k rest

/-- Python `d[k] = v` on an association-list dict: overwrite in place,
or append a fresh key at the end. -/
def dictSet {α : Type} (k : String) (v : α) : List (String × α) → List (String × α)
  | [] => [(k, v)]
  | (k', v') :: rest => if k = k' then (k, v) :: rest else (k', v') :: dictSet k v rest

/-- The in-memory store `DB`: tenant id ↦ (conversation id ↦ record). -/
abbrev Store : Type := List (String × List (String × Record))

/-- `db.get(tenant, {}).get(conversation)`: the tenant-scoped lookup
used by `get_result`, `rescore_transcript` and `run_rescore_pipeline`. -/
def storeGet (tenant conversation : String) (db : Store) : Option Record :=
  dictGet conversation ((dictGet tenant db).getD [])

/-- The result record built by `run_data_pipeline` in `src/main.py`,
with the value drawn by `random.uniform(-0.1, 0.1)` passed in as
`variance`. -/
def enrichResult (tenant_id : String) (data : TranscriptPayload) (variance : ℚ) : Record :=
  { conversation_id := data.conversation_id
    sentiment_score := round3 (8 / 10 + variance)
    summary := "Processed text length " ++ toString data.text.length ++ "."
    tags := if containsSub moneyChars data.text then ["finance", "risk"] else ["general"]
    status := "COMPLETED"
    tenant_id := tenant_id }

/-- Persisting step of `run_data_pipeline`: writes the result under
`db[tenant_id][data.conversation_id]`, creating the tenant sub-dict on
first write. -/
def run_data_pipeline (tenant_id : String) (data : TranscriptPayload)
    (variance : ℚ) (db : Store) : Store :=
  dictSet tenant_id
    (dictSet data.conversation_id (enrichResult tenant_id data variance)
      ((dictGet tenant_id db).getD [])) db

/-- The pure record transformation performed by `run_rescore_pipeline`
on an existing record: perturb the score, round, clamp to [0, 1], and
append `"review_required"` when the new score is below 0.5 and the tag
is not already present. -/
def rescoreRecord (variance : ℚ) (r : Record) : Record :=
  let new_score : ℚ := max 0 (min 1 (round3 (r.sentiment_score + variance)))
  let new_tags : List String :=
    if new_score < 1 / 2 ∧ "review_required" ∉ r.tags then
      r.tags ++ ["review_required"]
    else
      r.tags
  { r with sentiment_score := new_score, tags := new_tags }

/-- `run_rescore_pipeline` from `src/main.py`, with the value drawn by
`random.uniform(-0.5, 0.1)` passed in as `variance`.  If no record
exists for the key (including when the tenant sub-dict is absent) it
returns the store unchanged; otherwise it writes the rescored record
back to the same key. -/
def run_rescore_pipeline (tenant_id conversation_id : String)
    (variance : ℚ) (db : Store) : Store :=
  let tenant_db := (dictGet tenant_id db).getD []
  match dictGet conversation_id tenant_db with
  | none => db
  | some existing =>
      dictSet tenant_id (dictSet conversation_id (rescoreRecord variance existing) tenant_db) db

/-- An HTTP error response (`HTTPException` / pydantic 422). -/
structure HTTPError where
  status_code : Nat
  detail : String
deriving DecidableEq, Repr

/-- The queued acknowledgment body returned by ingest and rescore. -/
structure Ack where
  message : String
  job_id : String
  status : String
deriving DecidableEq, Repr

/-- A background task scheduled via `background_tasks.add_task`. -/
inductive BgTask where
  | dataTask (tenant_id : String) (payload : TranscriptPayload)
  | rescoreTask (tenant_id : String) (conversation_id : String)
deriving DecidableEq, Repr

/-- The observable outcome of one endpoint call: the response, the
background tasks scheduled during the call, and the store as the
endpoint leaves it (endpoints never mutate the store themselves). -/
structure HandlerResult (α : Type) where
  response : Except HTTPError α
  tasks : List BgTask
  db : Store

/-- The `/ingest` endpoint body (`ingest_transcript` in `src/main.py`):
given an already-validated payload and the (necessarily present)
required header value, 400 when the value is empty — Python truthiness
of `if not x_tenant_id` on a `str` — otherwise schedule
`run_data_pipeline` and acknowledge. -/
def ingest_transcript (payload : TranscriptPayload) (x_tenant_id : String)
    (db : Store) : HandlerResult Ack :=
  if x_tenant_id.isEmpty then
    { response := Except.error { status_code := 400, detail := "Missing Tenant ID" }
      tasks := []
      db := db }
  else
    { response := Except.ok { message := "Ingest started"
                              job_id := payload.conversation_id
                              status := "QUEUED" }
      tasks := [BgTask.dataTask x_tenant_id payload]
      db := db }

/-- The transport-layer (FastAPI) 422 validation error produced when
the required `x-tenant-id` header is absent from a request: with
`Header(...)` the framework rejects such a request before the endpoint
body runs. -/
def missingHeaderError : HTTPError :=
  { status_code := 422, detail := "Field required: x-tenant-id header" }

/-- A full `/ingest` request: the transport layer validates the body
text and the required header before the endpoint body runs (each
failure surfacing a 422), then the endpoint body executes with the
present header value. -/
def requestIngest (conversation_id : String) (text : List Char)
    (x_tenant_id : Option String) (db : Store) : HandlerResult Ack :=
  match validate_text text with
  | Except.error msg =>
      { response := Except.error { status_code := 422, detail := msg }
        tasks := []
        db := db }
  | Except.ok t =>
      match x_tenant_id with
      | none =>
          { response := Except.error missingHeaderError
            tasks := []
            db := db }
      | some hdr =>
          ingest_transcript { conversation_id := conversation_id, text := t } hdr db

/-- The `/results/{conversation_id}` endpoint (`get_result` in
`src/main.py`): a strictly tenant-scoped lookup, 404 when absent. -/
def get_result (conversation_id : String) (x_tenant_id : String)
    (db : Store) : HandlerResult Record :=
  match storeGet x_tenant_id conversation_id db with
  | none =>
      { response := Except.error { status_code := 404, detail := "Item not found or processing" }
        tasks := []
        db := db }
  | some item =>
      { response := Except.ok item, tasks := [], db := db }

/-- The `/rescore/{conversation_id}` endpoint (`rescore_transcript` in
`src/main.py`): 404 before queuing when no record exists for the
tenant+conversation key, otherwise schedule `run_rescore_pipeline` and
acknowledge. -/
def rescore_transcript (conversation_id : String) (x_tenant_id : String)
    (db : Store) : HandlerResult Ack :=
  match storeGet x_tenant_id conversation_id db with
  | none =>
      { response := Except.error { status_code := 404, detail := "Transcript not found" }
        tasks := []
        db := db }
  | some _ =>
      { response := Except.ok { message := "Re-score started"
                                job_id := conversation_id
                                status := "QUEUED" }
        tasks := [BgTask.rescoreTask x_tenant_id conversation_id]
        db := db }

/-- A sequence of rescore-pipeline executions for one key, with the
given perturbation values in order. -/
def applyRescores (tenant_id conversation_id : String) (vs : List ℚ) (db : Store) : Store :=
  vs.foldl (fun d v => run_rescore_pipeline tenant_id conversation_id v d) db

/-- The record-level fold corresponding to `applyRescores`. -/
def foldRescore (vs : List ℚ) (r : Record) : Record :=
  vs.foldl (fun a v => rescoreRecord v a) r

/-- Every record stored in `db` has status `"COMPLETED"`. -/
def statusAllCompleted (db : Store) : Bool :=
  db.all (fun p => p.2.all (fun q => q.2.status == "COMPLETED"))

/-- Concrete payload used by witness theorems. -/
def samplePayload : TranscriptPayload :=
  { conversation_id := "c1", text := "hello".toList }

/-- Concrete record used by witness theorems. -/
def sampleRecord : Record :=
  { conversation_id := "c1"
    sentiment_score := 1
    summary := "Processed text length 5."
    tags := ["general"]
    status := "COMPLETED"
    tenant_id := "acme" }

/-- Concrete one-tenant store used by witness theorems. -/
def sampleStore : Store := [("acme", [("c1", sampleRecord)])]

/-- A text of 5000 letters followed by one trailing space: its raw
length is 5001 but its stripped length is 5000. -/
def longText : List Char := List.replicate 5000 'a' ++ [' ']

example : containsSub moneyChars "send money now".toList = true := by decide
example : containsSub moneyChars "send Money now".toList = false := by decide
example : strip "  hi ".toList = ['h', 'i'] := by decide
example : round3 (7 / 10) = 7 / 10 := by
  unfold round3
  rw [show (7 : ℚ) / 10 * 1000 = ((700 : ℤ) : ℚ) by norm_num, round_intCast]
  norm_num

/-! ### Supporting lemmas: dicts -/

theorem dictGet_dictSet_self {α : Type} (k : String) (v : α) (d : List (String × α)) :
    dictGet k (dictSet k v d) = some v := by
  induction d with
  | nil => simp [dictGet, dictSet]
  | cons hd tl ih =>
      obtain ⟨k', v'⟩ := hd
      by_cases h : k = k'
      · simp [dictGet, dictSet, h]
      · simp [dictGet, dictSet, h, ih]

theorem dictGet_dictSet_ne {α : Type} {k k' : String} (h : k ≠ k') (v : α)
    (d : List (String × α)) : dictGet k (dictSet k' v d) = dictGet k d := by
  induction d with
  | nil => simp [dictGet, dictSet, h]
  | cons hd tl ih =>
      obtain ⟨k'', v''⟩ := hd
      by_cases h2 : k' = k''
      · subst h2
        simp [dictGet, dictSet, h]
      · by_cases h3 : k = k''
        · simp [dictGet, dictSet, h2, h3]
        · simp [dictGet, dictSet, h2, h3, ih]

theorem dictSet_all {α : Type} {P : String × α → Bool} {d : List (String × α)}
    {k : String} {v : α} (hd : d.all P = true) (hkv : P (k, v) = true) :
    (dictSet k v d).all P = true := by
  induction d with
  | nil => simp [dictSet, hkv]
  | cons hd' tl ih =>
      obtain ⟨k', v'⟩ := hd'
      simp only [List.all_cons, Bool.and_eq_true] at hd
      by_cases h : k = k'
      · subst h
        simp [dictSet, hkv, hd.2]
      · simp [dictSet, h, hd.1, ih hd.2]

theorem all_of_dictGet {α : Type} {P : String × α → Bool} {d : List (String × α)}
    (hall : d.all P = true) {k : String} {v : α} (hk : dictGet k d = some v) :
    P (k, v) = true := by
  induction d with
  | nil => simp [dictGet] at hk
  | cons hd tl ih =>
      obtain ⟨k', v'⟩ := hd
      simp only [List.all_cons, Bool.and_eq_true] at hall
      by_cases h : k = k'
      · subst h
        simp [dictGet] at hk
        subst hk
        exact hall.1
      · simp [dictGet, h] at hk
        exact ih hall.2 hk

/-! ### Supporting lemmas: rounding -/

theorem round3_mono {x y : ℚ} (h : x ≤ y) : round3 x ≤ round3 y := by
  unfold round3
  have hr : round (x * 1000) ≤ round (y * 1000) := by
    rw [round_eq, round_eq]
    exact Int.floor_le_floor (by linarith)
  have : ((round (x * 1000) : ℤ) : ℚ) ≤ ((round (y * 1000) : ℤ) : ℚ) := by
    exact_mod_cast hr
  linarith

theorem round3_int_div (n : ℤ) : round3 ((n : ℚ) / 1000) = (n : ℚ) / 1000 := by
  unfold round3
  rw [show ((n : ℚ) / 1000 * 1000) = (n : ℚ) by field_simp, round_intCast]

theorem round3_seven_tenths : round3 (7 / 10 : ℚ) = 7 / 10 := by
  have h := round3_int_div 700
  norm_num at h
  convert h using 2

theorem round3_nine_tenths : round3 (9 / 10 : ℚ) = 9 / 10 := by
  have h := round3_int_div 900
  norm_num at h
  convert h using 2

theorem round3_mem_interval {x : ℚ} (h1 : 7 / 10 ≤ x) (h2 : x ≤ 9 / 10) :
    7 / 10 ≤ round3 x ∧ round3 x ≤ 9 / 10 := by
  constructor
  · have := round3_mono h1
    rwa [round3_seven_tenths] at this
  · have := round3_mono h2
    rwa [round3_nine_tenths] at this

/-! ### Supporting lemmas: pipelines and the store -/

theorem storeGet_run_data_self (t : String) (p : TranscriptPayload) (v : ℚ) (db : Store) :
    storeGet t p.conversation_id (run_data_pipeline t p v db) = some (enrichResult t p v) := by
  unfold storeGet run_data_pipeline
  rw [dictGet_dictSet_self]
  simp [dictGet_dictSet_self]

theorem storeGet_run_data_other_tenant {t t' : String} (h : t' ≠ t)
    (c : String) (p : TranscriptPayload) (v : ℚ) (db : Store) :
    storeGet t' c (run_data_pipeline t p v db) = storeGet t' c db := by
  unfold storeGet run_data_pipeline
  rw [dictGet_dictSet_ne h]

theorem run_rescore_none {t c : String} {db : Store} (h : storeGet t c db = none) (v : ℚ) :
    run_rescore_pipeline t c v db = db := by
  unfold run_rescore_pipeline
  unfold storeGet at h
  dsimp only
  rw [h]

theorem run_rescore_some {t c : String} {db : Store} {r : Record}
    (h : storeGet t c db = some r) (v : ℚ) :
    run_rescore_pipeline t c v db =
      dictSet t (dictSet c (rescoreRecord v r) ((dictGet t db).getD [])) db := by
  unfold run_rescore_pipeline
  unfold storeGet at h
  dsimp only
  rw [h]

theorem storeGet_run_rescore_some {t c : String} {db : Store} {r : Record}
    (h : storeGet t c db = some r) (v : ℚ) :
    storeGet t c (run_rescore_pipeline t c v db) = some (rescoreRecord v r) := by
  rw [run_rescore_some h]
  unfold storeGet
  rw [dictGet_dictSet_self]
  simp [dictGet_dictSet_self]

theorem storeGet_applyRescores {t c : String} {db : Store} {r : Record}
    (vs : List ℚ) (h : storeGet t c db = some r) :
    storeGet t c (applyRescores t c vs db) = some (foldRescore vs r) := by
  induction vs generalizing db r with
  | nil => simpa [applyRescores, foldRescore] using h
  | cons v rest ih =>
      have hstep := storeGet_run_rescore_some h v
      have := ih hstep
      simpa [applyRescores, foldRescore] using this

/-! ### Supporting lemmas: one rescore step on a record -/

theorem rescoreRecord_score (v : ℚ) (r : Record) :
    (rescoreRecord v r).sentiment_score =
      max 0 (min 1 (round3 (r.sentiment_score + v))) := rfl

theorem rescoreRecord_score_mem (v : ℚ) (r : Record) :
    0 ≤ (rescoreRecord v r).sentiment_score ∧ (rescoreRecord v r).sentiment_score ≤ 1 := by
  rw [rescoreRecord_score]
  exact ⟨le_max_left 0 _, max_le (by norm_num) (min_le_left 1 _)⟩

theorem rescoreRecord_tags_cases (v : ℚ) (r : Record) :
    (rescoreRecord v r).tags = r.tags ∨
      ((rescoreRecord v r).tags = r.tags ++ ["review_required"] ∧
        "review_required" ∉ r.tags) := by
  unfold rescoreRecord
  dsimp only
  by_cases h : max 0 (min 1 (round3 (r.sentiment_score + v))) < 1 / 2 ∧
      "review_required" ∉ r.tags
  · right
    rw [if_pos h]
    exact ⟨rfl, h.2⟩
  · left
    rw [if_neg h]

theorem rescoreRecord_count_le (v : ℚ) (r : Record)
    (h : r.tags.count "review_required" ≤ 1) :
    (rescoreRecord v r).tags.count "review_required" ≤ 1 := by
  rcases rescoreRecord_tags_cases v r with h1 | ⟨h1, h2⟩
  · rw [h1]; exact h
  · rw [h1, List.count_append]
    have h0 : r.tags.count "review_required" = 0 := by
      simpa using List.count_eq_zero.mpr h2
    simp [h0]

theorem rescoreRecord_frame (v : ℚ) (r : Record) :
    (rescoreRecord v r).conversation_id = r.conversation_id ∧
    (rescoreRecord v r).summary = r.summary ∧
    (rescoreRecord v r).tenant_id = r.tenant_id ∧
    (rescoreRecord v r).status = r.status :=
  ⟨rfl, rfl, rfl, rfl⟩

/-! ### Supporting lemmas: folded rescores on a record -/

theorem foldRescore_count (vs : List ℚ) (r : Record)
    (h : r.tags.count "review_required" ≤ 1) :
    (foldRescore vs r).tags.count "review_required" ≤ 1 := by
  induction vs generalizing r with
  | nil => simpa [foldRescore] using h
  | cons v rest ih =>
      have := ih (rescoreRecord v r) (rescoreRecord_count_le v r h)
      simpa [foldRescore] using this

theorem foldRescore_score_preserve (vs : List ℚ) (r : Record)
    (h : 0 ≤ r.sentiment_score ∧ r.sentiment_score ≤ 1) :
    0 ≤ (foldRescore vs r).sentiment_score ∧ (foldRescore vs r).sentiment_score ≤ 1 := by
  induction vs generalizing r with
  | nil => simpa [foldRescore] using h
  | cons v rest ih =>
      have := ih (rescoreRecord v r) (rescoreRecord_score_mem v r)
      simpa [foldRescore] using this

theorem foldRescore_score_mem {vs : List ℚ} (hvs : vs ≠ []) (r : Record) :
    0 ≤ (foldRescore vs r).sentiment_score ∧ (foldRescore vs r).sentiment_score ≤ 1 := by
  cases vs with
  | nil => exact absurd rfl hvs
  | cons v rest =>
      have := foldRescore_score_preserve rest (rescoreRecord v r) (rescoreRecord_score_mem v r)
      simpa [foldRescore] using this

theorem foldRescore_tags_ext (vs : List ℚ) (r : Record) :
    ∃ ext, (foldRescore vs r).tags = r.tags ++ ext := by
  induction vs generalizing r with
  | nil => exact ⟨[], by simp [foldRescore]⟩
  | cons v rest ih =>
      obtain ⟨ext, hext⟩ := ih (rescoreRecord v r)
      rcases rescoreRecord_tags_cases v r with h1 | ⟨h1, _⟩
      · refine ⟨ext, ?_⟩
        have : (foldRescore (v :: rest) r) = foldRescore rest (rescoreRecord v r) := by
          simp [foldRescore]
        rw [this, hext, h1]
      · refine ⟨"review_required" :: ext, ?_⟩
        have : (foldRescore (v :: rest) r) = foldRescore rest (rescoreRecord v r) := by
          simp [foldRescore]
        rw [this, hext, h1]
        simp

theorem foldRescore_frame (vs : List ℚ) (r : Record) :
    (foldRescore vs r).conversation_id = r.conversation_id ∧
    (foldRescore vs r).summary = r.summary ∧
    (foldRescore vs r).tenant_id = r.tenant_id ∧
    (foldRescore vs r).status = r.status := by
  induction vs generalizing r with
  | nil => exact ⟨rfl, rfl, rfl, rfl⟩
  | cons v rest ih =>
      have hstep := rescoreRecord_frame v r
      have hrest := ih (rescoreRecord v r)
      have heq : foldRescore (v :: rest) r = foldRescore rest (rescoreRecord v r) := by
        simp [foldRescore]
      rw [heq]
      exact ⟨hrest.1.trans hstep.1, hrest.2.1.trans hstep.2.1,
        hrest.2.2.1.trans hstep.2.2.1, hrest.2.2.2.trans hstep.2.2.2⟩

/-! ### Supporting lemmas: status invariant -/

theorem sub_all_of_store {db : Store} (h : statusAllCompleted db = true) (t : String) :
    ((dictGet t db).getD []).all (fun q => q.2.status == "COMPLETED") = true := by
  unfold statusAllCompleted at h
  cases hd : dictGet t db with
  | none => simp
  | some s => simpa using all_of_dictGet h hd

theorem statusAllCompleted_run_data {db : Store} (h : statusAllCompleted db = true)
    (t : String) (p : TranscriptPayload) (v : ℚ) :
    statusAllCompleted (run_data_pipeline t p v db) = true := by
  unfold run_data_pipeline
  unfold statusAllCompleted at h ⊢
  refine dictSet_all h ?_
  refine dictSet_all (sub_all_of_store h t) ?_
  rfl

theorem statusAllCompleted_run_rescore {db : Store} (h : statusAllCompleted db = true)
    (t c : String) (v : ℚ) :
    statusAllCompleted (run_rescore_pipeline t c v db) = true := by
  cases hg : storeGet t c db with
  | none => rw [run_rescore_none hg]; exact h
  | some r =>
      rw [run_rescore_some hg]
      unfold statusAllCompleted at h ⊢
      refine dictSet_all h ?_
      refine dictSet_all (sub_all_of_store h t) ?_
      have hst : r.status = "COMPLETED" := by
        unfold storeGet at hg
        have := all_of_dictGet (sub_all_of_store h t) hg
        simpa using this
      simp [(rescoreRecord_frame v r).2.2.2, hst]

/-! ### Supporting lemmas: the substring test -/

theorem matchesAt_iff (n : List Char) : ∀ h : List Char,
    (matchesAt n h = true ↔ ∃ rest, h = n ++ rest) := by
  induction n with
  | nil => intro h; simp [matchesAt]
  | cons a as ih =>
      intro h
      cases h with
      | nil =>
          simp [matchesAt]
      | cons b bs =>
          rw [matchesAt, Bool.and_eq_true]
          constructor
          · rintro ⟨hab, hm⟩
            obtain ⟨rest, hrest⟩ := (ih bs).mp hm
            refine ⟨rest, ?_⟩
            have : a = b := by simpa using hab
            simp [this, hrest]
          · rintro ⟨rest, hrest⟩
            rw [List.cons_append] at hrest
            injection hrest with h1 h2
            exact ⟨by simp [h1], (ih bs).mpr ⟨rest, h2⟩⟩

theorem containsSub_iff (n : List Char) : ∀ h : List Char,
    (containsSub n h = true ↔ ∃ pre post, h = pre ++ n ++ post) := by
  intro h
  induction h with
  | nil =>
      rw [containsSub, matchesAt_iff]
      constructor
      · rintro ⟨rest, hr⟩
        exact ⟨[], rest, by simpa using hr⟩
      · rintro ⟨pre, post, hp⟩
        have h1 : pre ++ n = [] ∧ post = [] := by
          have := hp.symm
          rwa [List.append_eq_nil] at this
        have h2 : pre = [] ∧ n = [] := by
          have := h1.1
          rwa [List.append_eq_nil] at this
        exact ⟨[], by simp [h2.2]⟩
  | cons c rest ih =>
      rw [containsSub, Bool.or_eq_true, matchesAt_iff, ih]
      constructor
      · rintro (⟨r, hr⟩ | ⟨pre, post, hp⟩)
        · exact ⟨[], r, by simpa using hr⟩
        · exact ⟨c :: pre, post, by simp [hp]⟩
      · rintro ⟨pre, post, hp⟩
        cases pre with
        | nil =>
            left
            exact ⟨post, by simpa using hp⟩
        | cons p ps =>
            right
            rw [List.cons_append, List.cons_append] at hp
            injection hp with h1 h2
            exact ⟨ps, post, by simpa using h2⟩

/-! ### Supporting lemmas: validation -/

theorem strip_nil : strip [] = [] := rfl

theorem isEmpty_of_strip_isEmpty {v : List Char} (h : v.isEmpty = true) :
    (strip v).isEmpty = true := by
  cases v with
  | nil => rfl
  | cons a as => simp [List.isEmpty] at h

theorem validate_text_total (v : List Char) :
    (((strip v).isEmpty = true ∨ v.length > 5000) ∧
      ∃ msg, validate_text v = Except.error msg) ∨
    ((strip v).isEmpty = false ∧ v.length ≤ 5000 ∧ validate_text v = Except.ok v) := by
  unfold validate_text
  by_cases h1 : (v.isEmpty || (strip v).isEmpty) = true
  · left
    have hs : (strip v).isEmpty = true := by
      rw [Bool.or_eq_true] at h1
      rcases h1 with h | h
      · exact isEmpty_of_strip_isEmpty h
      · exact h
    exact ⟨Or.inl hs, ⟨_, by rw [if_pos h1]⟩⟩
  · have hs : (strip v).isEmpty = false := by
      cases hb : (strip v).isEmpty with
      | false => rfl
      | true => exact absurd (by simp [hb]) h1
    by_cases h2 : v.length > 5000
    · exact Or.inl ⟨Or.inr h2, ⟨_, by rw [if_neg h1, if_pos h2]⟩⟩
    · exact Or.inr ⟨hs, Nat.le_of_not_lt h2, by rw [if_neg h1, if_neg h2]⟩

theorem validate_text_isOk_iff (v : List Char) :
    (validate_text v).isOk = true ↔
      ((strip v).isEmpty = false ∧ v.length ≤ 5000) := by
  rcases validate_text_total v with ⟨hcond, msg, herr⟩ | ⟨h1, h2, hok⟩
  · rw [herr]
    apply iff_of_false (by simp [Except.isOk, Except.toBool])
    rintro ⟨hs, hl⟩
    rcases hcond with h | h
    · rw [h] at hs; simp at hs
    · omega
  · rw [hok]
    exact iff_of_true (by simp [Except.isOk, Except.toBool]) ⟨h1, h2⟩

/-! ### Supporting lemmas: the 5001-character text -/

theorem dropWhile_replicate_of_neg {p : Char → Bool} {a : Char} (h : p a = false) (n : Nat) :
    List.dropWhile p (List.replicate n a) = List.replicate n a := by
  cases n with
  | zero => rfl
  | succ m => simp [List.replicate_succ, List.dropWhile_cons, h]

theorem strip_longText : strip longText = List.replicate 5000 'a' := by
  unfold longText strip
  have ha : Char.isWhitespace 'a' = false := by decide
  have hsp : Char.isWhitespace ' ' = true := by decide
  have h1 : List.dropWhile Char.isWhitespace (List.replicate 5000 'a' ++ [' ']) =
      List.replicate 5000 'a' ++ [' '] := by
    rw [show List.replicate 5000 'a' ++ [' '] = 'a' :: (List.replicate 4999 'a' ++ [' ']) from by
      rw [List.replicate_succ, List.cons_append]]
    rw [List.dropWhile_cons, ha, if_neg (by decide)]
  rw [h1, List.reverse_append, List.reverse_replicate]
  rw [show ([' '] : List Char).reverse = [' '] from rfl, List.singleton_append,
    List.dropWhile_cons, hsp, if_pos rfl]
  rw [dropWhile_replicate_of_neg ha, List.reverse_replicate]

theorem longText_length : longText.length = 5001 := by
  unfold longText
  rw [List.length_append, List.length_replicate]
  rfl

theorem isEmpty_false_of_length_pos {l : List Char} (h : 0 < l.length) :
    l.isEmpty = false := by
  cases l with
  | nil => simp at h
  | cons a as => rfl

theorem validate_text_longText :
    validate_text longText = Except.error "Text field cannot exceed 5000 characters" := by
  have hv : longText.isEmpty = false :=
    isEmpty_false_of_length_pos (by rw [longText_length]; norm_num)
  have hs : (strip longText).isEmpty = false := by
    rw [strip_longText]
    exact isEmpty_false_of_length_pos (by rw [List.length_replicate]; norm_num)
  unfold validate_text
  rw [if_neg (by simp [hv, hs]), if_pos (by rw [longText_length]; norm_num)]

/-! ### The claims -/

/-- C1: Tenant isolation of fetch: an enrichment-pipeline write under
tenant `t1` never changes what a fetch under a different tenant `t2`
returns for any conversation `c`, and when `t2` holds no record for `c`
the fetch under `t2` still fails with the 404 not-found error after the
write under `t1`. -/
theorem c1_tenant_isolation_of_fetch (t1 t2 c : String) (p : TranscriptPayload)
    (v : ℚ) (db : Store) (hne : t1 ≠ t2) :
    (get_result c t2 (run_data_pipeline t1 p v db)).response =
      (get_result c t2 db).response ∧
    (storeGet t2 c db = none →
      (get_result c t2 (run_data_pipeline t1 p v db)).response =
        Except.error { status_code := 404, detail := "Item not found or processing" }) := by
  have hframe : storeGet t2 c (run_data_pipeline t1 p v db) = storeGet t2 c db :=
    storeGet_run_data_other_tenant (Ne.symm hne) c p v db
  constructor
  · unfold get_result
    rw [hframe]
    cases storeGet t2 c db <;> rfl
  · intro h0
    unfold get_result
    rw [hframe, h0]

theorem c1_witness :
    ("acme" : String) ≠ "other" ∧
      ((get_result "c1" "other" (run_data_pipeline "acme" samplePayload 0 [])).response =
          (get_result "c1" "other" ([] : Store)).response ∧
        (storeGet "other" "c1" ([] : Store) = none →
          (get_result "c1" "other" (run_data_pipeline "acme" samplePayload 0 [])).response =
            Except.error { status_code := 404, detail := "Item not found or processing" })) :=
  ⟨by decide, c1_tenant_isolation_of_fetch "acme" "other" "c1" samplePayload 0 [] (by decide)⟩

/-- C2: for any perturbation `v ∈ [-0.1, 0.1]`, the enrichment pipeline
stores sentiment score `round3 (0.8 + v)` — the rounded sum itself, with
no clamping applied — and that value lies in `[0.7, 0.9]`. -/
theorem c2_initial_sentiment_range (t : String) (p : TranscriptPayload) (v : ℚ)
    (db : Store) (h1 : -(1 / 10) ≤ v) (h2 : v ≤ 1 / 10) :
    ∃ r, storeGet t p.conversation_id (run_data_pipeline t p v db) = some r ∧
      r.sentiment_score = round3 (8 / 10 + v) ∧
      7 / 10 ≤ r.sentiment_score ∧ r.sentiment_score ≤ 9 / 10 := by
  have hm := round3_mem_interval (show (7 : ℚ) / 10 ≤ 8 / 10 + v by linarith)
    (show (8 : ℚ) / 10 + v ≤ 9 / 10 by linarith)
  exact ⟨enrichResult t p v, storeGet_run_data_self t p v db, rfl, hm.1, hm.2⟩

theorem c2_witness :
    (-(1 / 10 : ℚ) ≤ 0 ∧ (0 : ℚ) ≤ 1 / 10) ∧
      ∃ r, storeGet "acme" samplePayload.conversation_id
          (run_data_pipeline "acme" samplePayload 0 []) = some r ∧
        r.sentiment_score = round3 (8 / 10 + 0) ∧
        7 / 10 ≤ r.sentiment_score ∧ r.sentiment_score ≤ 9 / 10 :=
  ⟨⟨by norm_num, by norm_num⟩,
    c2_initial_sentiment_range "acme" samplePayload 0 [] (by norm_num) (by norm_num)⟩

/-- C3: the enrichment pipeline stores tags `["finance", "risk"]` iff the
literal character sequence of `"money"` occurs contiguously (anywhere,
case-sensitively) in the payload text, and stores `["general"]` iff it
does not. -/
theorem c3_tags_iff_money (t : String) (p : TranscriptPayload) (v : ℚ) (db : Store) :
    ∃ r, storeGet t p.conversation_id (run_data_pipeline t p v db) = some r ∧
      (r.tags = ["finance", "risk"] ↔ ∃ pre post, p.text = pre ++ moneyChars ++ post) ∧
      (r.tags = ["general"] ↔ ¬∃ pre post, p.text = pre ++ moneyChars ++ post) := by
  refine ⟨enrichResult t p v, storeGet_run_data_self t p v db, ?_⟩
  have htags : (enrichResult t p v).tags =
      if containsSub moneyChars p.text then ["finance", "risk"] else ["general"] := rfl
  by_cases h : containsSub moneyChars p.text = true
  · have hex := (containsSub_iff moneyChars p.text).mp h
    rw [htags, if_pos h]
    exact ⟨iff_of_true rfl hex, iff_of_false (by simp) (not_not_intro hex)⟩
  · have hnex : ¬∃ pre post, p.text = pre ++ moneyChars ++ post := fun hc =>
      h ((containsSub_iff moneyChars p.text).mpr hc)
    rw [htags, if_neg h]
    exact ⟨iff_of_false (by simp) hnex, iff_of_true rfl hnex⟩

/-- C4: starting from any stored record in which `"review_required"`
occurs at most once, any sequence of rescore-pipeline runs leaves a
record whose `"review_required"` tag still occurs at most once, whose
sentiment score is in `[0, 1]` whenever at least one rescore ran, and
whose tags extend the original tags in order. -/
theorem c4_rescore_clamp_and_tag (t c : String) (db : Store) (r : Record)
    (vs : List ℚ) (hr : storeGet t c db = some r)
    (hcount : r.tags.count "review_required" ≤ 1) :
    ∃ r', storeGet t c (applyRescores t c vs db) = some r' ∧
      r'.tags.count "review_required" ≤ 1 ∧
      (vs ≠ [] → 0 ≤ r'.sentiment_score ∧ r'.sentiment_score ≤ 1) ∧
      ∃ ext, r'.tags = r.tags ++ ext :=
  ⟨foldRescore vs r, storeGet_applyRescores vs hr, foldRescore_count vs r hcount,
    fun hvs => foldRescore_score_mem hvs r, foldRescore_tags_ext vs r⟩

theorem c4_witness :
    (storeGet "acme" "c1" sampleStore = some sampleRecord ∧
      sampleRecord.tags.count "review_required" ≤ 1) ∧
      ∃ r', storeGet "acme" "c1" (applyRescores "acme" "c1" [0] sampleStore) = some r' ∧
        r'.tags.count "review_required" ≤ 1 ∧
        (([0] : List ℚ) ≠ [] → 0 ≤ r'.sentiment_score ∧ r'.sentiment_score ≤ 1) ∧
        ∃ ext, r'.tags = sampleRecord.tags ++ ext :=
  ⟨⟨rfl, by decide⟩,
    c4_rescore_clamp_and_tag "acme" "c1" sampleStore sampleRecord [0] rfl (by decide)⟩

/-- C5 counterexample: a request with a valid payload but the tenant
header absent entirely is rejected by the required-header validation
with a 422, not with the claimed 400 "Missing Tenant ID": the endpoint
body's 400 path is unreachable for a missing header. -/
theorem c5_counterexample :
    (requestIngest "c1" "hello".toList none ([] : Store)).response =
      Except.error missingHeaderError ∧
    missingHeaderError.status_code = 422 ∧ (422 : Nat) ≠ 400 :=
  ⟨rfl, rfl, by decide⟩

/-- C5 (amended): the ingest endpoint body returns the 400 "Missing
Tenant ID" error and schedules no pipeline work exactly when the
present header value is the empty string; a request with the header
missing entirely is rejected before the body by the transport layer's
422 validation error, likewise scheduling no work and leaving the
store unchanged; a non-empty tenant id never fails for these
reasons. -/
theorem c5_tenant_header (p : TranscriptPayload) (db : Store) :
    (∀ t : String, t.isEmpty = true →
      ingest_transcript p t db =
        { response := Except.error { status_code := 400, detail := "Missing Tenant ID" },
          tasks := [], db := db }) ∧
    (∀ t : String, t.isEmpty = false →
      ingest_transcript p t db =
        { response := Except.ok ⟨"Ingest started", p.conversation_id, "QUEUED"⟩,
          tasks := [BgTask.dataTask t p], db := db }) ∧
    (∀ (cid : String) (text : List Char),
      ∃ e, requestIngest cid text none db =
        { response := Except.error e, tasks := [], db := db } ∧
        e.status_code = 422) := by
  refine ⟨?_, ?_, ?_⟩
  · intro t h
    unfold ingest_transcript
    rw [if_pos h]
  · intro t h
    have h' : ¬ t.isEmpty = true := by simp [h]
    unfold ingest_transcript
    rw [if_neg h']
  · intro cid text
    unfold requestIngest
    cases hv : validate_text text with
    | error msg => exact ⟨⟨422, msg⟩, rfl, rfl⟩
    | ok t0 => exact ⟨missingHeaderError, rfl, rfl⟩

theorem c5_witness :
    (("" : String).isEmpty = true ∧
      ingest_transcript samplePayload "" sampleStore =
        { response := Except.error { status_code := 400, detail := "Missing Tenant ID" },
          tasks := [], db := sampleStore }) ∧
    (("acme" : String).isEmpty = false ∧
      ingest_transcript samplePayload "acme" sampleStore =
        { response := Except.ok ⟨"Ingest started", samplePayload.conversation_id, "QUEUED"⟩,
          tasks := [BgTask.dataTask "acme" samplePayload], db := sampleStore }) ∧
    (∃ e, requestIngest "c1" "hello".toList none sampleStore =
        { response := Except.error e, tasks := [], db := sampleStore } ∧
        e.status_code = 422) :=
  ⟨⟨by decide, (c5_tenant_header samplePayload sampleStore).1 "" (by decide)⟩,
    ⟨by decide, (c5_tenant_header samplePayload sampleStore).2.1 "acme" (by decide)⟩,
    (c5_tenant_header samplePayload sampleStore).2.2 "c1" "hello".toList⟩

/-- C6 counterexample: a text of 5000 letters plus one trailing space
has trimmed length 5000 — inside the claimed 1..5000 window — yet
validation rejects it, because the code bounds the raw, untrimmed
length by 5000. -/
theorem c6_counterexample :
    (1 ≤ (strip longText).length ∧ (strip longText).length ≤ 5000) ∧
      (validate_text longText).isOk = false := by
  refine ⟨⟨?_, ?_⟩, ?_⟩
  · rw [strip_longText, List.length_replicate]
    norm_num
  · rw [strip_longText, List.length_replicate]
  · rw [validate_text_longText]
    rfl

/-- C6 (amended): a payload text is accepted by validation iff its
trimmed text is nonempty and its raw (untrimmed) length is at most
5000 characters. -/
theorem c6_accept_iff (v : List Char) :
    (validate_text v).isOk = true ↔
      ((strip v).isEmpty = false ∧ v.length ≤ 5000) :=
  validate_text_isOk_iff v

/-- C7: validation fails exactly when the trimmed text is empty or the
raw text exceeds 5000 characters, and a full ingest request with such a
text gets a 422 error with no background task scheduled and the store
unchanged. -/
theorem c7_validation_rejection (cid : String) (text : List Char)
    (x : Option String) (db : Store) :
    ((validate_text text).isOk = false ↔
      ((strip text).isEmpty = true ∨ text.length > 5000)) ∧
    (((strip text).isEmpty = true ∨ text.length > 5000) →
      ∃ msg, validate_text text = Except.error msg ∧
        requestIngest cid text x db =
          { response := Except.error { status_code := 422, detail := msg },
            tasks := [], db := db }) := by
  constructor
  · rw [← Bool.not_eq_true, validate_text_isOk_iff]
    constructor
    · intro h
      by_cases hs : (strip text).isEmpty = true
      · exact Or.inl hs
      · right
        have hs' : (strip text).isEmpty = false := by
          cases hb : (strip text).isEmpty
          · rfl
          · exact absurd hb hs
        by_contra hl
        exact h ⟨hs', Nat.le_of_not_lt hl⟩
    · rintro (h | h) ⟨h1, h2⟩
      · rw [h] at h1
        simp at h1
      · omega
  · intro h
    rcases validate_text_total text with ⟨hcond, msg, herr⟩ | ⟨h1, h2, hok⟩
    · refine ⟨msg, herr, ?_⟩
      unfold requestIngest
      rw [herr]
    · exfalso
      rcases h with hs | hl
      · simp [h1] at hs
      · omega

theorem c7_witness :
    ((strip ([' '] : List Char)).isEmpty = true ∨ ([' '] : List Char).length > 5000) ∧
      ∃ msg, validate_text [' '] = Except.error msg ∧
        requestIngest "c1" [' '] (some "acme") [] =
          { response := Except.error { status_code := 422, detail := msg },
            tasks := [], db := [] } :=
  ⟨Or.inl (by decide),
    (c7_validation_rejection "c1" [' '] (some "acme") []).2 (Or.inl (by decide))⟩

/-- C8: the rescore endpoint fails with a 404 before queuing — no task
scheduled, store unchanged — when no record exists for the
tenant+conversation key, and otherwise returns the 202 queued
acknowledgment with the conversation id as job id, scheduling exactly
one rescore task. -/
theorem c8_rescore_endpoint (c t : String) (db : Store) :
    (storeGet t c db = none →
      rescore_transcript c t db =
        { response := Except.error { status_code := 404, detail := "Transcript not found" },
          tasks := [], db := db }) ∧
    (∀ r, storeGet t c db = some r →
      rescore_transcript c t db =
        { response := Except.ok ⟨"Re-score started", c, "QUEUED"⟩,
          tasks := [BgTask.rescoreTask t c], db := db }) := by
  constructor
  · intro h
    unfold rescore_transcript
    rw [h]
  · intro r h
    unfold rescore_transcript
    rw [h]

theorem c8_witness :
    (storeGet "acme" "missing" sampleStore = none ∧
      rescore_transcript "missing" "acme" sampleStore =
        { response := Except.error { status_code := 404, detail := "Transcript not found" },
          tasks := [], db := sampleStore }) ∧
    (storeGet "acme" "c1" sampleStore = some sampleRecord ∧
      rescore_transcript "c1" "acme" sampleStore =
        { response := Except.ok ⟨"Re-score started", "c1", "QUEUED"⟩,
          tasks := [BgTask.rescoreTask "acme" "c1"], db := sampleStore }) :=
  ⟨⟨rfl, (c8_rescore_endpoint "missing" "acme" sampleStore).1 rfl⟩,
    ⟨rfl, (c8_rescore_endpoint "c1" "acme" sampleStore).2 sampleRecord rfl⟩⟩

/-- C9: when the rescore pipeline finds no record for its
tenant+conversation key — in particular when the tenant sub-dict itself
is absent — it terminates leaving the store entirely unchanged (a total
function: no error is raised). -/
theorem c9_rescore_silent_noop (t c : String) (v : ℚ) (db : Store) :
    (storeGet t c db = none → run_rescore_pipeline t c v db = db) ∧
    (dictGet t db = none → run_rescore_pipeline t c v db = db) := by
  constructor
  · intro h
    exact run_rescore_none h v
  · intro h
    refine run_rescore_none ?_ v
    unfold storeGet
    rw [h]
    rfl

theorem c9_witness :
    (storeGet "acme" "c1" ([] : Store) = none ∧
      run_rescore_pipeline "acme" "c1" 0 [] = ([] : Store)) ∧
    (dictGet "acme" ([] : Store) = none ∧
      run_rescore_pipeline "acme" "c1" 0 [] = ([] : Store)) :=
  ⟨⟨rfl, (c9_rescore_silent_noop "acme" "c1" 0 []).1 rfl⟩,
    ⟨rfl, (c9_rescore_silent_noop "acme" "c1" 0 []).2 rfl⟩⟩

/-- C10: a rescore changes only the sentiment score and tags — the
conversation id, summary, tenant id and status of the stored record are
preserved — the enrichment pipeline writes status "COMPLETED", and both
pipelines preserve the invariant that every stored record has status
"COMPLETED". -/
theorem c10_frame_and_status :
    (∀ (v : ℚ) (r : Record),
        (rescoreRecord v r).conversation_id = r.conversation_id ∧
        (rescoreRecord v r).summary = r.summary ∧
        (rescoreRecord v r).tenant_id = r.tenant_id ∧
        (rescoreRecord v r).status = r.status) ∧
    (∀ (t c : String) (v : ℚ) (db : Store) (r : Record),
        storeGet t c db = some r →
          ∃ r', storeGet t c (run_rescore_pipeline t c v db) = some r' ∧
            r'.conversation_id = r.conversation_id ∧ r'.summary = r.summary ∧
            r'.tenant_id = r.tenant_id ∧ r'.status = r.status) ∧
    (∀ (t : String) (p : TranscriptPayload) (v : ℚ),
        (enrichResult t p v).status = "COMPLETED") ∧
    (∀ (db : Store), statusAllCompleted db = true →
        (∀ (t : String) (p : TranscriptPayload) (v : ℚ),
            statusAllCompleted (run_data_pipeline t p v db) = true) ∧
        (∀ (t c : String) (v : ℚ),
            statusAllCompleted (run_rescore_pipeline t c v db) = true)) := by
  refine ⟨rescoreRecord_frame, ?_, fun t p v => rfl,
    fun db h => ⟨fun t p v => statusAllCompleted_run_data h t p v,
      fun t c v => statusAllCompleted_run_rescore h t c v⟩⟩
  intro t c v db r hr
  exact ⟨rescoreRecord v r, storeGet_run_rescore_some hr v,
    (rescoreRecord_frame v r).1, (rescoreRecord_frame v r).2.1,
    (rescoreRecord_frame v r).2.2.1, (rescoreRecord_frame v r).2.2.2⟩

theorem c10_witness :
    ((rescoreRecord 0 sampleRecord).status = sampleRecord.status ∧
      (enrichResult "acme" samplePayload 0).status = "COMPLETED") ∧
    (storeGet "acme" "c1" sampleStore = some sampleRecord ∧
      ∃ r', storeGet "acme" "c1" (run_rescore_pipeline "acme" "c1" 0 sampleStore) = some r' ∧
        r'.conversation_id = sampleRecord.conversation_id ∧ r'.summary = sampleRecord.summary ∧
        r'.tenant_id = sampleRecord.tenant_id ∧ r'.status = sampleRecord.status) ∧
    (statusAllCompleted sampleStore = true ∧
      statusAllCompleted (run_rescore_pipeline "acme" "c1" 0 sampleStore) = true) :=
  ⟨⟨(c10_frame_and_status.1 0 sampleRecord).2.2.2,
      c10_frame_and_status.2.2.1 "acme" samplePayload 0⟩,
    ⟨rfl, c10_frame_and_status.2.1 "acme" "c1" 0 sampleStore sampleRecord rfl⟩,
    ⟨by decide, (c10_frame_and_status.2.2.2 sampleStore (by decide)).2 "acme" "c1" 0⟩⟩
